import Mathlib

/-!
A shallow embedding of the data/sync layer of the BudgetsCalm desktop app
(`src/lib/db.ts`): the budget/expense document store and the validated
save/delete/copy/import/export operations, together with proofs of the
behavioural properties of those operations.

Modelling conventions:
* The RxDB document store is modelled as a `Store` holding the two
  collections as lists in insertion order; `findOne` is `List.find?`,
  `insert`/`bulkInsert` append, `update` maps over the list, `remove`
  erases by id.
* Fallible operations return `Except String Store` carrying the exact
  error message thrown by the source; a thrown error performs no write,
  which the model reflects by returning no new store.
* Sources of nondeterminism in the code (`moment()` for the current
  date, `Date.now()/Math.random()` for generated ids) are explicit
  parameters (`currentMonth`, `today`, `newId`, `genId`).
* Numeric amounts (`value`, `cost`) are modelled as `Int`; the
  `Number.isNaN` guard of the source has no counterpart because the
  model has no NaN value.
* Revision markers (`_rev`) are storage-layer metadata managed by RxDB
  outside this repository's code and are stripped before any data
  leaves the system; they are not modelled, so the `delete raw._rev`
  lines of `exportAllData` and `copyBudgets` are identities here.
-/

/-- A budget record (`T.Budget` in `src/lib/types`): primary key `id`,
a `name`, a `YYYY-MM` `month` and a numeric `value`. -/
structure Budget where
  id : String
  name : String
  month : String
  value : Int
deriving Repr, DecidableEq

/-- An expense record (`T.Expense`): primary key `id`, a numeric `cost`,
a `description`, the `budget` it is attributed to (a soft reference by
name) and a `YYYY-MM-DD` `date`. -/
structure Expense where
  id : String
  cost : Int
  description : String
  budget : String
  date : String
deriving Repr, DecidableEq

/-- The document store: the `budgets` and `expenses` collections, in
insertion order. -/
structure Store where
  budgets : List Budget
  expenses : List Expense
deriving Repr, DecidableEq

deriving instance DecidableEq for Except

/-- Lexicographic comparison of character lists by code point, the
order the storage layer uses for `.gte`/`.lte` range queries on string
fields. -/
def charListLe : List Char → List Char → Bool
  | [], _ => true
  | _ :: _, [] => false
  | a :: as, b :: bs =>
    if a.toNat < b.toNat then true
    else if b.toNat < a.toNat then false
    else charListLe as bs

/-- Lexicographic string comparison (models the storage layer's ordering
of string keys in range queries). -/
def strLe (a b : String) : Bool :=
  charListLe a.toList b.toList

/-- Models JavaScript's `String.prototype.trim`: remove whitespace from
both ends of the string. -/
def strTrim (s : String) : String :=
  ⟨((s.toList.dropWhile Char.isWhitespace).reverse.dropWhile Char.isWhitespace).reverse⟩

/-- Does `date` fall in the inclusive range `month ++ "-01" .. month ++ "-31"`?
This is the query the source uses everywhere it selects the expenses of a
month (`.where('date').gte(month + "-01").lte(month + "-31")`). -/
def dateInMonth (month date : String) : Bool :=
  strLe (month ++ "-01") date && strLe date (month ++ "-31")

/-- Models `moment(s, 'YYYY-MM').isValid()`: four digits, a dash, and a
two-digit month between 01 and 12. -/
def isValidMonth (s : String) : Bool :=
  match s.toList with
  | [y1, y2, y3, y4, sep, m1, m2] =>
    y1.isDigit && y2.isDigit && y3.isDigit && y4.isDigit && sep == '-' &&
    m1.isDigit && m2.isDigit &&
    decide (1 ≤ (m1.toNat - 48) * 10 + (m2.toNat - 48) ∧
            (m1.toNat - 48) * 10 + (m2.toNat - 48) ≤ 12)
  | _ => false

/-- Models `moment(s, 'YYYY-MM-DD').isValid()`: `YYYY-MM-DD` with month
01–12 and day 01–31 (moment additionally rejects days that overflow the
particular month; no property below depends on that refinement). -/
def isValidDate (s : String) : Bool :=
  match s.toList with
  | [y1, y2, y3, y4, sep1, m1, m2, sep2, d1, d2] =>
    y1.isDigit && y2.isDigit && y3.isDigit && y4.isDigit && sep1 == '-' &&
    m1.isDigit && m2.isDigit && sep2 == '-' && d1.isDigit && d2.isDigit &&
    decide (1 ≤ (m1.toNat - 48) * 10 + (m2.toNat - 48) ∧
            (m1.toNat - 48) * 10 + (m2.toNat - 48) ≤ 12) &&
    decide (1 ≤ (d1.toNat - 48) * 10 + (d2.toNat - 48) ∧
            (d1.toNat - 48) * 10 + (d2.toNat - 48) ≤ 31)
  | _ => false

/-- The month a budget is normalized to in `saveBudget`:
`if (!moment(budget.month, 'YYYY-MM').isValid()) budget.month = moment().format('YYYY-MM')`. -/
def normMonth (m currentMonth : String) : String :=
  if isValidMonth m then m else currentMonth

/-- The date an expense is normalized to in `saveExpense`:
`if (!moment(expense.date, 'YYYY-MM-DD').isValid()) expense.date = moment().format('YYYY-MM-DD')`. -/
def normDate (d today : String) : String :=
  if isValidDate d then d else today

/-- Models `expense.date.substr(0, 7)`: the first seven characters of a
date string, i.e. its `YYYY-MM` month. -/
def monthOfDate (date : String) : String :=
  ⟨date.toList.take 7⟩

/-- `saveBudget` (src/lib/db.ts lines 186–262). Validates name and value,
normalizes the month, rejects a duplicate `(month, name)` (excluding the
input's own id), then inserts (sentinel id `"newBudget"`) or updates name
and value in place, cascading a rename to the expenses of the stored
budget's month. -/
def saveBudget (s : Store) (budget : Budget) (currentMonth newId : String) :
    Except String Store :=
  if budget.name = "Total" then
    .error "Cannot create budget named \"Total\"."
  else if (strTrim budget.name).length = 0 then
    .error "The budget needs a valid name."
  else if budget.value ≤ 0 then
    .error "The budget needs a valid value."
  else
    let month := normMonth budget.month currentMonth
    if (s.budgets.find? (fun b =>
          b.month == month && b.name == budget.name && b.id != budget.id)).isSome then
      .error "A budget with the same name for the same month already exists."
    else if budget.id = "newBudget" then
      .ok { s with budgets :=
              s.budgets ++ [{ budget with month := month, id := newId }] }
    else
      match s.budgets.find? (fun b => b.id == budget.id) with
      | none =>
        -- the source reads `existingBudget.name` on a null document here,
        -- which rejects the promise with a TypeError
        .error "Cannot update a missing budget."
      | some existingBudget =>
        let oldName := existingBudget.name
        let newName := budget.name
        let budgets := s.budgets.map (fun b =>
          if b.id == budget.id then
            { b with name := budget.name, value := budget.value }
          else b)
        let expenses :=
          if oldName ≠ newName then
            s.expenses.map (fun e =>
              if dateInMonth existingBudget.month e.date && e.budget == oldName then
                { e with budget := newName }
              else e)
          else s.expenses
        .ok { budgets := budgets, expenses := expenses }

instance : DecidableRel (fun a b : Budget => strLe a.name b.name = true) :=
  fun a b => inferInstanceAs (Decidable (strLe a.name b.name = true))

instance : DecidableRel (fun a b : Expense => strLe a.date b.date = true) :=
  fun a b => inferInstanceAs (Decidable (strLe a.date b.date = true))

/-- Modelled from the spec: `sortByName` from `src/lib/utils` (the file is
not part of the sources); per §4.5 of the spec it sorts budgets by name. -/
def sortByName (l : List Budget) : List Budget :=
  List.insertionSort (fun a b => strLe a.name b.name = true) l

/-- Modelled from the spec: `sortByDate` from `src/lib/utils` (the file is
not part of the sources); per §4.5 of the spec it sorts expenses by date
ascending. -/
def sortByDate (l : List Expense) : List Expense :=
  List.insertionSort (fun a b => strLe a.date b.date = true) l

/-- `fetchBudgets` (db.ts lines 162–169): the budgets of a month, sorted
by name. -/
def fetchBudgets (s : Store) (month : String) : List Budget :=
  sortByName (s.budgets.filter (fun b => b.month == month))

/-- `fetchExpenses` (db.ts lines 170–181): the expenses whose date falls
in the month's range, sorted by date descending. -/
def fetchExpenses (s : Store) (month : String) : List Expense :=
  (sortByDate (s.expenses.filter (fun e => dateInMonth month e.date))).reverse

/-- The budget-name resolution step of `saveExpense` (db.ts lines
276–297): a new expense with an empty or `"Misc"` budget inherits the
budget of any stored expense with the same description, and an empty
budget falls back to `"Misc"`. -/
def resolveBudget (s : Store) (expense : Expense) : String :=
  let b :=
    if (expense.budget == "" || expense.budget == "Misc") && expense.id == "newExpense" then
      match s.expenses.find? (fun e => e.description == expense.description) with
      | some matching => if matching.budget == "" then expense.budget else matching.budget
      | none => expense.budget
    else expense.budget
  if b == "" then "Misc" else b

/-- `saveExpense` (db.ts lines 263–337). Validates description and cost,
normalizes the date, resolves the budget name, auto-creates the budget
for `(date[0:7], budget)` through `saveBudget` when it is missing, then
inserts (sentinel id `"newExpense"`) or updates the expense. -/
def saveExpense (s : Store) (expense : Expense)
    (today currentMonth newBudgetId newExpenseId : String) :
    Except String Store :=
  if (strTrim expense.description).length = 0 then
    .error "The expense needs a valid description."
  else if expense.cost ≤ 0 then
    .error "The expense needs a valid cost."
  else
    let expense1 := { expense with date := normDate expense.date today }
    let expense2 := { expense1 with budget := resolveBudget s expense1 }
    let month := monthOfDate expense2.date
    let ensured : Except String Store :=
      if (s.budgets.find? (fun b =>
            b.month == month && b.name == expense2.budget)).isSome then
        .ok s
      else
        saveBudget s ⟨"newBudget", expense2.budget, month, 100⟩ currentMonth newBudgetId
    match ensured with
    | .error e => .error e
    | .ok s1 =>
      if expense2.id = "newExpense" then
        .ok { s1 with expenses := s1.expenses ++ [{ expense2 with id := newExpenseId }] }
      else
        match s1.expenses.find? (fun e => e.id == expense2.id) with
        | none =>
          -- the source calls `.update` on a null document here, which
          -- rejects the promise with a TypeError
          .error "Cannot update a missing expense."
        | some _ =>
          .ok { s1 with expenses := s1.expenses.map (fun e =>
                  if e.id == expense2.id then
                    { e with cost := expense2.cost, description := expense2.description,
                             budget := expense2.budget, date := expense2.date }
                  else e) }

/-- `deleteBudget` (db.ts lines 341–376). Locates the budget by id; if
expenses of its month reference it by name, deletion is refused unless
duplicate `(month, name)` budget rows exist (a sync anomaly), in which
case — as when there are no referencing expenses — the located document
is removed. -/
def deleteBudget (s : Store) (budgetId : String) : Except String Store :=
  match s.budgets.find? (fun b => b.id == budgetId) with
  | none =>
    -- the source reads `existingBudget.month` on a null document here,
    -- which rejects the promise with a TypeError
    .error "Cannot delete a missing budget."
  | some existingBudget =>
    let matchingExpenses := s.expenses.filter (fun e =>
      dateInMonth existingBudget.month e.date && e.budget == existingBudget.name)
    let matchingBudgets := s.budgets.filter (fun b =>
      b.month == existingBudget.month && b.name == existingBudget.name)
    if matchingExpenses.length > 0 ∧ matchingBudgets.length = 1 then
      .error "There are expenses using this budget. You can't delete a budget with expenses"
    else
      .ok { s with budgets := s.budgets.eraseP (fun b => b.id == budgetId) }

/-- `deleteExpense` (db.ts lines 377–384): locate by id and remove. -/
def deleteExpense (s : Store) (expenseId : String) : Except String Store :=
  match s.expenses.find? (fun e => e.id == expenseId) with
  | none => .error "Cannot delete a missing expense."
  | some _ =>
    .ok { s with expenses := s.expenses.eraseP (fun e => e.id == expenseId) }

/-- The clone loop of `copyBudgets`: each fetched origin budget gets a
freshly generated id (`Date.now():Math.random()`, modelled by `genId`
applied to the clone's position) and the destination month. -/
def cloneBudgets (genId : Nat → String) (destinationMonth : String) :
    Nat → List Budget → List Budget
  | _, [] => []
  | n, b :: rest =>
    { b with id := genId n, month := destinationMonth } ::
      cloneBudgets genId destinationMonth (n + 1) rest

/-- `copyBudgets` (db.ts lines 385–398): fetch the origin month's
budgets, clone each with a new id and the destination month, and bulk
insert the clones when there are any. -/
def copyBudgets (s : Store) (originalMonth destinationMonth : String)
    (genId : Nat → String) : Store :=
  let originalBudgets := fetchBudgets s originalMonth
  let destinationBudgets := cloneBudgets genId destinationMonth 0 originalBudgets
  if destinationBudgets.length > 0 then
    { s with budgets := s.budgets ++ destinationBudgets }
  else s

/-- `deleteAllData` (db.ts lines 447–462): both collections are dropped
and the underlying storage erased, leaving an empty store. -/
def deleteAllData (_s : Store) : Store :=
  ⟨[], []⟩

/-- `importData` (db.ts lines 399–416): optionally wipe and recreate the
collections, then bulk-insert the supplied budgets and expenses verbatim. -/
def importData (s : Store) (replaceData : Bool)
    (budgets : List Budget) (expenses : List Expense) : Store :=
  let s1 := if replaceData then deleteAllData s else s
  { budgets := s1.budgets ++ budgets, expenses := s1.expenses ++ expenses }

/-- `exportAllData` (db.ts lines 417–446): the budgets with month in the
inclusive range `2000-01 .. 2100-12` sorted by name, and the expenses
with date in `2000-01-01 .. 2100-12-31` sorted by date (revision markers
are stripped, which the model does not represent). -/
def exportAllData (s : Store) : Store :=
  { budgets := sortByName (s.budgets.filter (fun b =>
      strLe "2000-01" b.month && strLe b.month "2100-12")),
    expenses := sortByDate (s.expenses.filter (fun e =>
      strLe "2000-01-01" e.date && strLe e.date "2100-12-31")) }


/-- The per-month name-uniqueness invariant of the spec: two budgets
with different ids in the same month never share a name. -/
def monthNameUnique (s : Store) : Prop :=
  ∀ b1 ∈ s.budgets, ∀ b2 ∈ s.budgets, b1.id ≠ b2.id → b1.month = b2.month →
    b1.name ≠ b2.name

instance (s : Store) : Decidable (monthNameUnique s) := by
  unfold monthNameUnique
  infer_instance

example :
    saveBudget ⟨[], []⟩ ⟨"newBudget", "Food", "2024-05", 100⟩ "2024-01" "gen1" =
      .ok ⟨[⟨"gen1", "Food", "2024-05", 100⟩], []⟩ := by decide

example :
    saveBudget ⟨[], []⟩ ⟨"newBudget", "Total", "2024-05", 100⟩ "2024-01" "gen1" =
      .error "Cannot create budget named \"Total\"." := by decide

example : dateInMonth "2024-05" "2024-05-17" = true := by decide
example : dateInMonth "2024-05" "2024-06-01" = false := by decide
example : isValidMonth "2024-05" = true := by decide
example : isValidMonth "garbage" = false := by decide
example : isValidDate "2024-05-17" = true := by decide
example : monthOfDate "2024-05-17" = "2024-05" := by decide

/-- `findOne` by a key that is unique in the collection returns the
record with that key. -/
theorem find?_key_eq {α β : Type} [BEq β] [LawfulBEq β] (f : α → β)
    (l : List α) (h : (l.map f).Nodup) (a : α) (ha : a ∈ l) :
    l.find? (fun x => f x == f a) = some a := by
  induction l with
  | nil => cases ha
  | cons hd tl ih =>
    rw [List.map_cons, List.nodup_cons] at h
    rcases List.mem_cons.mp ha with rfl | hmem
    · simp [List.find?]
    · have hne : (f hd == f a) = false := by
        rw [beq_eq_false_iff_ne]
        intro heq
        exact h.1 (heq ▸ List.mem_map_of_mem f hmem)
      simp only [List.find?, hne]
      exact ih h.2 hmem

/-- A duplicate-free list whose only member satisfying `p` is `b`
filters down to exactly `[b]`. -/
theorem filter_eq_singleton {α : Type} (l : List α) (p : α → Bool) (b : α)
    (hnd : l.Nodup) (hb : b ∈ l) (hpb : p b = true)
    (honly : ∀ x ∈ l, p x = true → x = b) :
    l.filter p = [b] := by
  induction l with
  | nil => cases hb
  | cons hd tl ih =>
    rw [List.nodup_cons] at hnd
    rcases List.mem_cons.mp hb with rfl | hmem
    · have htl : tl.filter p = [] := by
        rw [List.filter_eq_nil_iff]
        intro x hx hpx
        exact hnd.1 ((honly x (List.mem_cons_of_mem _ hx) hpx) ▸ hx)
      simp [List.filter_cons, hpb, htl]
    · have hhd : p hd = false := by
        cases hph : p hd with
        | false => rfl
        | true => exact absurd (honly hd (List.mem_cons_self _ _) hph ▸ hmem) hnd.1
      rw [List.filter_cons_of_neg (by simp [hhd])]
      exact ih hnd.2 hmem (fun x hx => honly x (List.mem_cons_of_mem _ hx))

/-- The month of a valid `YYYY-MM-DD` date is a valid `YYYY-MM` month. -/
theorem isValidMonth_monthOfDate (d : String) (h : isValidDate d = true) :
    isValidMonth (monthOfDate d) = true := by
  unfold isValidDate at h
  unfold monthOfDate isValidMonth
  rcases d with ⟨cs⟩
  match cs with
  | [y1, y2, y3, y4, sep1, m1, m2, sep2, d1, d2] =>
    simp only [String.toList] at h ⊢
    simp only [Bool.and_eq_true] at h
    simp [h.1.1, h.1.2]
  | [] => simp at h
  | [a] => simp at h
  | [a, b] => simp at h
  | [a, b, c] => simp at h
  | [a, b, c, e] => simp at h
  | [a, b, c, e, f] => simp at h
  | [a, b, c, e, f, g] => simp at h
  | [a, b, c, e, f, g, i] => simp at h
  | [a, b, c, e, f, g, i, j] => simp at h
  | [a, b, c, e, f, g, i, j, k] => simp at h
  | a :: b :: c :: e :: f :: g :: i :: j :: k :: m :: n :: rest => simp at h

/-- C8: for every store, id, month and value, `saveBudget` on a budget
named exactly `"Total"` throws the reserved-name error (and, returning
an error, writes nothing to the store). -/
theorem saveBudget_total_rejected (s : Store) (id month : String)
    (value : Int) (currentMonth newId : String) :
    saveBudget s ⟨id, "Total", month, value⟩ currentMonth newId =
      .error "Cannot create budget named \"Total\"." := by
  rfl

/-- C10: `exportAllData` returns exactly the budgets whose month lies in
the inclusive string range `["2000-01", "2100-12"]` and exactly the
expenses whose date lies in `["2000-01-01", "2100-12-31"]` (as
permutations of the corresponding filters, so any record outside the
bounds is omitted). -/
theorem exportAllData_range (s : Store) :
    (exportAllData s).budgets.Perm (s.budgets.filter (fun b =>
        strLe "2000-01" b.month && strLe b.month "2100-12")) ∧
    (exportAllData s).expenses.Perm (s.expenses.filter (fun e =>
        strLe "2000-01-01" e.date && strLe e.date "2100-12-31")) ∧
    (∀ b, b ∈ (exportAllData s).budgets ↔
        b ∈ s.budgets ∧ (strLe "2000-01" b.month && strLe b.month "2100-12") = true) ∧
    (∀ e, e ∈ (exportAllData s).expenses ↔
        e ∈ s.expenses ∧ (strLe "2000-01-01" e.date && strLe e.date "2100-12-31") = true) := by
  refine ⟨List.perm_insertionSort _ _, List.perm_insertionSort _ _, ?_, ?_⟩
  · intro b
    unfold exportAllData sortByName
    rw [(List.perm_insertionSort _ _).mem_iff]
    exact List.mem_filter
  · intro e
    unfold exportAllData sortByDate
    rw [(List.perm_insertionSort _ _).mem_iff]
    exact List.mem_filter

/-- Unfolding lemma: when the validations pass, there is no duplicate,
and the id is the `"newBudget"` sentinel, `saveBudget` appends the
normalized budget under the freshly generated id. -/
theorem saveBudget_insert_eq (s : Store) (budget : Budget) (cm nid : String)
    (h1 : budget.name ≠ "Total") (h2 : (strTrim budget.name).length ≠ 0)
    (h3 : ¬ budget.value ≤ 0)
    (hdup : s.budgets.find? (fun b =>
        b.month == normMonth budget.month cm && b.name == budget.name &&
          b.id != budget.id) = none)
    (hnew : budget.id = "newBudget") :
    saveBudget s budget cm nid =
      .ok { s with budgets := s.budgets ++
             [{ budget with month := normMonth budget.month cm, id := nid }] } := by
  unfold saveBudget
  rw [if_neg h1, if_neg h2, if_neg h3]
  simp only [hdup, Option.isSome_none, Bool.false_eq_true, if_false, if_pos hnew]

/-- Unfolding lemma: when the validations pass, there is no duplicate,
the id is not the sentinel, and a stored budget carries the input's id,
`saveBudget` updates that budget's name and value and cascades a rename
over the expenses of the stored budget's month. -/
theorem saveBudget_update_eq (s : Store) (budget : Budget) (cm nid : String)
    (existing : Budget)
    (h1 : budget.name ≠ "Total") (h2 : (strTrim budget.name).length ≠ 0)
    (h3 : ¬ budget.value ≤ 0)
    (hdup : s.budgets.find? (fun b =>
        b.month == normMonth budget.month cm && b.name == budget.name &&
          b.id != budget.id) = none)
    (hold : budget.id ≠ "newBudget")
    (hfind : s.budgets.find? (fun b => b.id == budget.id) = some existing) :
    saveBudget s budget cm nid =
      .ok { budgets := s.budgets.map (fun b =>
              if b.id == budget.id then
                { b with name := budget.name, value := budget.value }
              else b),
            expenses :=
              if existing.name ≠ budget.name then
                s.expenses.map (fun e =>
                  if dateInMonth existing.month e.date && e.budget == existing.name then
                    { e with budget := budget.name }
                  else e)
              else s.expenses } := by
  unfold saveBudget
  rw [if_neg h1, if_neg h2, if_neg h3]
  simp only [hdup, Option.isSome_none, Bool.false_eq_true, if_false, if_neg hold, hfind]

/-- C1, counterexample to the claim as stated: updating budget `"2"`
(stored in month `2024-01`) while supplying the different month
`2024-02` passes the duplicate check in `2024-02`, yet renames the
stored `2024-01` record, leaving two distinct budgets of month
`2024-01` both named `"A"` after a successful save. -/
theorem saveBudget_uniqueness_counterexample :
    saveBudget ⟨[⟨"1", "A", "2024-01", 100⟩, ⟨"2", "B", "2024-01", 100⟩], []⟩
        ⟨"2", "A", "2024-02", 100⟩ "2024-01" "x" =
      .ok ⟨[⟨"1", "A", "2024-01", 100⟩, ⟨"2", "A", "2024-01", 100⟩], []⟩ ∧
    ¬ monthNameUnique ⟨[⟨"1", "A", "2024-01", 100⟩, ⟨"2", "A", "2024-01", 100⟩], []⟩ := by
  decide

/-- C1 (amended): the save is rejected with the duplicate-budget error
whenever another budget (excluding the one identified by the input's id)
already has the input's normalized `(month, name)`; and a successful
save preserves per-month name uniqueness, provided no stored budget uses
the `"newBudget"` sentinel id and — the amendment forced by the
counterexample — any stored budget carrying the input's id has the
input's normalized month (the update path checks the duplicate against
the supplied month but renames the record in its stored month). -/
theorem saveBudget_uniqueness (s : Store) (input : Budget) (cm nid : String)
    (hname1 : input.name ≠ "Total")
    (hname2 : (strTrim input.name).length ≠ 0)
    (hval : ¬ input.value ≤ 0)
    (hsentinel : ∀ b ∈ s.budgets, b.id ≠ "newBudget")
    (huniq : monthNameUnique s)
    (hmonth : ∀ b ∈ s.budgets, b.id = input.id → b.month = normMonth input.month cm) :
    ((∃ b ∈ s.budgets, b.month = normMonth input.month cm ∧ b.name = input.name ∧
        b.id ≠ input.id) →
      saveBudget s input cm nid =
        .error "A budget with the same name for the same month already exists.") ∧
    (∀ s', saveBudget s input cm nid = .ok s' → monthNameUnique s') := by
  constructor
  · rintro ⟨b, hb, hbm, hbn, hbid⟩
    have hsome : (s.budgets.find? (fun b =>
        b.month == normMonth input.month cm && b.name == input.name &&
          b.id != input.id)).isSome = true := by
      rw [List.find?_isSome]
      exact ⟨b, hb, by simp [hbm, hbn, hbid]⟩
    unfold saveBudget
    rw [if_neg hname1, if_neg hname2, if_neg hval]
    simp only [hsome, if_true]
  · intro s' hok
    cases hdup : s.budgets.find? (fun b =>
        b.month == normMonth input.month cm && b.name == input.name &&
          b.id != input.id) with
    | some b =>
      unfold saveBudget at hok
      rw [if_neg hname1, if_neg hname2, if_neg hval] at hok
      simp only [hdup, Option.isSome_some, if_true] at hok
      exact Except.noConfusion hok
    | none =>
      have hnodup : ∀ b ∈ s.budgets, ¬(b.month == normMonth input.month cm &&
          b.name == input.name && b.id != input.id) = true := by
        rw [← List.find?_eq_none]
        exact hdup
      by_cases hnew : input.id = "newBudget"
      · rw [saveBudget_insert_eq s input cm nid hname1 hname2 hval hdup hnew] at hok
        cases hok
        intro b1 hb1 b2 hb2 hid hm hn
        simp only [List.mem_append, List.mem_singleton] at hb1 hb2
        rcases hb1 with hb1 | rfl <;> rcases hb2 with hb2 | rfl
        · exact huniq b1 hb1 b2 hb2 hid hm hn
        · -- b2 is the inserted budget
          simp only at hm hn
          have hb1id : b1.id = "newBudget" := by
            by_contra hc
            rw [← hnew] at hc
            exact hnodup b1 hb1 (by simp [hm, hn, hc])
          exact hsentinel b1 hb1 hb1id
        · -- b1 is the inserted budget
          simp only at hm hn
          have hb2id : b2.id = "newBudget" := by
            by_contra hc
            rw [← hnew] at hc
            exact hnodup b2 hb2 (by simp [← hm, ← hn, hc])
          exact hsentinel b2 hb2 hb2id
        · exact hid rfl
      · cases hfind : s.budgets.find? (fun b => b.id == input.id) with
        | none =>
          unfold saveBudget at hok
          rw [if_neg hname1, if_neg hname2, if_neg hval] at hok
          simp only [hdup, Option.isSome_none, Bool.false_eq_true, if_false,
            if_neg hnew, hfind] at hok
          exact Except.noConfusion hok
        | some existing =>
          rw [saveBudget_update_eq s input cm nid existing hname1 hname2 hval hdup
            hnew hfind] at hok
          cases hok
          intro b1 hb1 b2 hb2 hid hm hn
          simp only [List.mem_map] at hb1 hb2
          obtain ⟨a1, ha1, rfl⟩ := hb1
          obtain ⟨a2, ha2, rfl⟩ := hb2
          cases h1 : (a1.id == input.id) <;> cases h2 : (a2.id == input.id) <;>
            simp only [h1, h2, Bool.false_eq_true, if_true, if_false] at hid hm hn ⊢
          · exact huniq a1 ha1 a2 ha2 hid hm hn
          · -- a2 is the updated record, a1 is untouched
            have ha2id : a2.id = input.id := beq_iff_eq.mp h2
            have ha2m : a2.month = normMonth input.month cm :=
              hmonth a2 ha2 ha2id
            have ha1id : a1.id ≠ input.id := by
              intro hc
              rw [hc, beq_self_eq_true] at h1
              exact Bool.noConfusion h1
            exact hnodup a1 ha1 (by simp [hm, ha2m, hn, ha1id])
          · -- a1 is the updated record, a2 is untouched
            have ha1id : a1.id = input.id := beq_iff_eq.mp h1
            have ha1m : a1.month = normMonth input.month cm :=
              hmonth a1 ha1 ha1id
            have ha2id : a2.id ≠ input.id := by
              intro hc
              rw [hc, beq_self_eq_true] at h2
              exact Bool.noConfusion h2
            exact hnodup a2 ha2 (by simp [← hm, ha1m, ← hn, ha2id])
          · -- both carry the input's id, contradicting distinctness
            exact hid ((beq_iff_eq.mp h1).trans (beq_iff_eq.mp h2).symm)

/-- C1 witness: with a stored budget `("2024-01", "A")`, saving a new
budget with the same month and name is rejected with the duplicate
error. -/
theorem saveBudget_uniqueness_witness :
    saveBudget ⟨[⟨"1", "A", "2024-01", 100⟩], []⟩
        ⟨"newBudget", "A", "2024-01", 100⟩ "2024-01" "g" =
      .error "A budget with the same name for the same month already exists." :=
  (saveBudget_uniqueness ⟨[⟨"1", "A", "2024-01", 100⟩], []⟩
      ⟨"newBudget", "A", "2024-01", 100⟩ "2024-01" "g"
      (by decide) (by decide) (by decide) (by decide) (by decide) (by decide)).1
    ⟨⟨"1", "A", "2024-01", 100⟩, by decide, by decide, by decide, by decide⟩

/-- Erasing by a key that is duplicate-free removes the keyed record:
it is no longer a member afterwards. -/
theorem not_mem_eraseP_key {α β : Type} [BEq β] [LawfulBEq β] (f : α → β)
    (l : List α) (h : (l.map f).Nodup) (a : α) :
    a ∉ l.eraseP (fun x => f x == f a) := by
  induction l with
  | nil => simp
  | cons hd tl ih =>
    rw [List.map_cons, List.nodup_cons] at h
    cases hpos : (f hd == f a) with
    | true =>
      rw [List.eraseP_cons, hpos]
      intro hmem
      exact h.1 (beq_iff_eq.mp hpos ▸ List.mem_map_of_mem f hmem)
    | false =>
      rw [List.eraseP_cons, hpos]
      simp only [cond_false, List.mem_cons]
      rintro (rfl | hmem)
      · rw [beq_self_eq_true] at hpos
        exact Bool.noConfusion hpos
      · exact ih h.2 hmem

/-- C2: deleting a budget that at least one expense of its month
references by name fails with the referential-integrity error when the
budget's `(month, name)` row is unique — and when a second row with the
identical `(month, name)` exists, the delete succeeds and removes the
located budget (leaving the expenses untouched). An error performs no
write, so in the failing case the budget stays in the store. -/
theorem deleteBudget_referential_integrity (s : Store) (b : Budget)
    (hids : (s.budgets.map Budget.id).Nodup)
    (hb : b ∈ s.budgets)
    (href : ∃ e ∈ s.expenses, dateInMonth b.month e.date = true ∧ e.budget = b.name) :
    ((∀ b2 ∈ s.budgets, b2 ≠ b → ¬(b2.month = b.month ∧ b2.name = b.name)) →
      deleteBudget s b.id =
        .error "There are expenses using this budget. You can't delete a budget with expenses") ∧
    ((∃ b2 ∈ s.budgets, b2 ≠ b ∧ b2.month = b.month ∧ b2.name = b.name) →
      ∃ s', deleteBudget s b.id = .ok s' ∧ b ∉ s'.budgets ∧
        s'.expenses = s.expenses) := by
  have hfind : s.budgets.find? (fun x => x.id == b.id) = some b :=
    find?_key_eq Budget.id s.budgets hids b hb
  obtain ⟨e, he, hedm, hebud⟩ := href
  have hlen : 0 < (s.expenses.filter (fun e =>
      dateInMonth b.month e.date && e.budget == b.name)).length := by
    have : e ∈ s.expenses.filter (fun e =>
        dateInMonth b.month e.date && e.budget == b.name) :=
      List.mem_filter.mpr ⟨he, by simp [hedm, hebud]⟩
    exact List.length_pos.mpr (List.ne_nil_of_mem this)
  constructor
  · intro honly
    have hone : (s.budgets.filter (fun x =>
        x.month == b.month && x.name == b.name)).length = 1 := by
      rw [filter_eq_singleton s.budgets _ b (List.Nodup.of_map _ hids) hb
        (by simp) ?_]
      · rfl
      · intro x hx hpx
        by_contra hxb
        apply honly x hx hxb
        simpa [Bool.and_eq_true, beq_iff_eq] using hpx
    unfold deleteBudget
    rw [hfind]
    simp only
    rw [if_pos ⟨hlen, hone⟩]
  · rintro ⟨b2, hb2, hb2ne, hb2m, hb2n⟩
    have hnotone : ¬ (0 < (s.expenses.filter (fun e =>
        dateInMonth b.month e.date && e.budget == b.name)).length ∧
        (s.budgets.filter (fun x =>
          x.month == b.month && x.name == b.name)).length = 1) := by
      rintro ⟨-, hone⟩
      obtain ⟨x, hx⟩ := List.length_eq_one.mp hone
      have hbx : b ∈ [x] := hx ▸ List.mem_filter.mpr ⟨hb, by simp⟩
      have hb2x : b2 ∈ [x] :=
        hx ▸ List.mem_filter.mpr ⟨hb2, by simp [hb2m, hb2n]⟩
      rw [List.mem_singleton] at hbx hb2x
      exact hb2ne (hb2x.trans hbx.symm)
    have hdel : deleteBudget s b.id =
        .ok { s with budgets := s.budgets.eraseP (fun x => x.id == b.id) } := by
      unfold deleteBudget
      rw [hfind]
      simp only
      rw [if_neg hnotone]
    exact ⟨_, hdel, not_mem_eraseP_key Budget.id s.budgets hids b, rfl⟩

/-- C2 witness: with the duplicate row `("b2", Food, 2024-05)` present,
deleting `"b1"` succeeds even though an expense references (2024-05,
Food). -/
theorem deleteBudget_referential_integrity_witness :
    ∃ s', deleteBudget ⟨[⟨"b1", "Food", "2024-05", 100⟩, ⟨"b2", "Food", "2024-05", 100⟩],
        [⟨"e1", 10, "apples", "Food", "2024-05-03"⟩]⟩ "b1" = .ok s' ∧
      (⟨"b1", "Food", "2024-05", 100⟩ : Budget) ∉ s'.budgets ∧
      s'.expenses = [⟨"e1", 10, "apples", "Food", "2024-05-03"⟩] :=
  (deleteBudget_referential_integrity
      ⟨[⟨"b1", "Food", "2024-05", 100⟩, ⟨"b2", "Food", "2024-05", 100⟩],
        [⟨"e1", 10, "apples", "Food", "2024-05-03"⟩]⟩
      ⟨"b1", "Food", "2024-05", 100⟩ (by decide) (by decide)
      ⟨⟨"e1", 10, "apples", "Food", "2024-05-03"⟩, by decide, by decide, by decide⟩).2
    ⟨⟨"b2", "Food", "2024-05", 100⟩, by decide, by decide, by decide, by decide⟩

/-- C3: a successful `saveBudget` update that renames the stored budget
`existing` rewrites exactly those expenses whose date falls in
`existing`'s stored month and whose budget equals the old name to the
new name; every other expense — in particular every expense of any
other month — is mapped to itself, so it is unchanged. -/
theorem saveBudget_rename_cascade (s : Store) (input existing : Budget)
    (cm nid : String)
    (hids : (s.budgets.map Budget.id).Nodup)
    (hmem : existing ∈ s.budgets) (hid : existing.id = input.id)
    (hnotnew : input.id ≠ "newBudget")
    (hname1 : input.name ≠ "Total")
    (hname2 : (strTrim input.name).length ≠ 0)
    (hval : ¬ input.value ≤ 0)
    (hdup : ∀ b ∈ s.budgets, ¬(b.month = normMonth input.month cm ∧
        b.name = input.name ∧ b.id ≠ input.id))
    (hchange : existing.name ≠ input.name) :
    ∃ s', saveBudget s input cm nid = .ok s' ∧
      s'.expenses = s.expenses.map (fun e =>
        if dateInMonth existing.month e.date && e.budget == existing.name then
          { e with budget := input.name }
        else e) ∧
      ∀ e ∈ s.expenses, dateInMonth existing.month e.date = false →
        e ∈ s'.expenses := by
  have hfind : s.budgets.find? (fun x => x.id == input.id) = some existing := by
    have := find?_key_eq Budget.id s.budgets hids existing hmem
    rw [hid] at this
    exact this
  have hdupnone : s.budgets.find? (fun b =>
      b.month == normMonth input.month cm && b.name == input.name &&
        b.id != input.id) = none := by
    rw [List.find?_eq_none]
    intro b hb hpb
    apply hdup b hb
    simpa [Bool.and_eq_true, beq_iff_eq, bne_iff_ne, and_assoc] using hpb
  rw [saveBudget_update_eq s input cm nid existing hname1 hname2 hval hdupnone
    hnotnew hfind]
  refine ⟨_, rfl, ?_, ?_⟩
  · simp only [if_pos hchange]
  · intro e he hfalse
    simp only [if_pos hchange]
    exact List.mem_map.mpr ⟨e, he, by simp [hfalse]⟩

/-- C3 witness: renaming Food → Groceries for month 2024-05 rewrites the
2024-05 expense and leaves the 2024-06 expense unchanged. -/
theorem saveBudget_rename_cascade_witness :
    ∃ s', saveBudget ⟨[⟨"b1", "Food", "2024-05", 100⟩],
        [⟨"e1", 10, "apples", "Food", "2024-05-03"⟩,
         ⟨"e2", 10, "apples", "Food", "2024-06-03"⟩]⟩
        ⟨"b1", "Groceries", "2024-05", 100⟩ "2024-05" "x" = .ok s' ∧
      s'.expenses = [⟨"e1", 10, "apples", "Food", "2024-05-03"⟩,
          ⟨"e2", 10, "apples", "Food", "2024-06-03"⟩].map (fun e =>
        if dateInMonth "2024-05" e.date && e.budget == "Food" then
          { e with budget := "Groceries" }
        else e) ∧
      ∀ e ∈ [⟨"e1", 10, "apples", "Food", "2024-05-03"⟩,
          ⟨"e2", 10, "apples", "Food", "2024-06-03"⟩].filter
            (fun _ : Expense => true),
        dateInMonth "2024-05" e.date = false → e ∈ s'.expenses := by
  obtain ⟨s', h1, h2, h3⟩ := saveBudget_rename_cascade
    ⟨[⟨"b1", "Food", "2024-05", 100⟩],
      [⟨"e1", 10, "apples", "Food", "2024-05-03"⟩,
       ⟨"e2", 10, "apples", "Food", "2024-06-03"⟩]⟩
    ⟨"b1", "Groceries", "2024-05", 100⟩ ⟨"b1", "Food", "2024-05", 100⟩
    "2024-05" "x" (by decide) (by decide) (by decide) (by decide) (by decide)
    (by decide) (by decide) (by decide) (by decide)
  exact ⟨s', h1, h2, fun e he => h3 e (by simpa using he)⟩

/-- Unfolding lemma: a valid new expense whose resolved budget already
exists for its month is appended under the generated id, with the
normalized date and the resolved budget name. -/
theorem saveExpense_insert_existing_eq (s : Store) (e : Expense)
    (today cm nbid neid : String)
    (hdesc : (strTrim e.description).length ≠ 0)
    (hcost : ¬ e.cost ≤ 0)
    (hid : e.id = "newExpense")
    (hfound : (s.budgets.find? (fun b =>
        b.month == monthOfDate (normDate e.date today) &&
          b.name == resolveBudget s { e with date := normDate e.date today })).isSome
      = true) :
    saveExpense s e today cm nbid neid =
      .ok { s with expenses := s.expenses ++
        [{ e with
             id := neid,
             date := normDate e.date today,
             budget := resolveBudget s { e with date := normDate e.date today } }] } := by
  unfold saveExpense
  rw [if_neg hdesc, if_neg hcost]
  simp only [hid] at hfound ⊢
  simp [hfound]

/-- Unfolding lemma: a valid new expense whose resolved budget is
missing for its month first auto-creates that budget with value 100
through `saveBudget` (which succeeds when the resolved name passes the
name checks and the month is valid), then appends the expense. -/
theorem saveExpense_insert_create_eq (s : Store) (e : Expense)
    (today cm nbid neid : String)
    (hdesc : (strTrim e.description).length ≠ 0)
    (hcost : ¬ e.cost ≤ 0)
    (hid : e.id = "newExpense")
    (hnotfound : s.budgets.find? (fun b =>
        b.month == monthOfDate (normDate e.date today) &&
          b.name == resolveBudget s { e with date := normDate e.date today }) = none)
    (hr1 : resolveBudget s { e with date := normDate e.date today } ≠ "Total")
    (hr2 : (strTrim (resolveBudget s { e with date := normDate e.date today })).length ≠ 0)
    (hvm : isValidMonth (monthOfDate (normDate e.date today)) = true) :
    saveExpense s e today cm nbid neid =
      .ok { budgets := s.budgets ++
              [⟨nbid, resolveBudget s { e with date := normDate e.date today },
                monthOfDate (normDate e.date today), 100⟩],
            expenses := s.expenses ++
              [{ e with
                   id := neid,
                   date := normDate e.date today,
                   budget := resolveBudget s { e with date := normDate e.date today } }] } := by
  have hnm : normMonth (monthOfDate (normDate e.date today)) cm =
      monthOfDate (normDate e.date today) := by
    unfold normMonth
    rw [if_pos hvm]
  have hnested : s.budgets.find? (fun b =>
      b.month == normMonth (monthOfDate (normDate e.date today)) cm &&
        b.name == resolveBudget s { e with date := normDate e.date today } &&
        b.id != "newBudget") = none := by
    rw [List.find?_eq_none]
    intro b hb hpb
    apply List.find?_eq_none.mp hnotfound b hb
    rw [hnm] at hpb
    simp only [Bool.and_eq_true] at hpb ⊢
    exact hpb.1
  unfold saveExpense
  rw [if_neg hdesc, if_neg hcost]
  simp only [hnotfound, Option.isSome_none, Bool.false_eq_true, if_false]
  rw [saveBudget_insert_eq s
    ⟨"newBudget", resolveBudget s { e with date := normDate e.date today },
      monthOfDate (normDate e.date today), 100⟩ cm nbid hr1 hr2 (by norm_num)
    hnested rfl]
  simp only [hid] at *
  simp [hnm]

/-- Unfolding lemma: when the resolved budget name is the reserved name
`"Total"` and no such budget exists for the expense's month, the
auto-creation path rejects it and `saveExpense` propagates the error. -/
theorem saveExpense_reserved_name_eq (s : Store) (e : Expense)
    (today cm nbid neid : String)
    (hdesc : (strTrim e.description).length ≠ 0)
    (hcost : ¬ e.cost ≤ 0)
    (hres : resolveBudget s { e with date := normDate e.date today } = "Total")
    (hnotfound : s.budgets.find? (fun b =>
        b.month == monthOfDate (normDate e.date today) &&
          b.name == resolveBudget s { e with date := normDate e.date today }) = none) :
    saveExpense s e today cm nbid neid =
      .error "Cannot create budget named \"Total\"." := by
  unfold saveExpense
  rw [if_neg hdesc, if_neg hcost]
  simp only [hnotfound, Option.isSome_none, Bool.false_eq_true, if_false]
  have htotal : saveBudget s
      ⟨"newBudget", resolveBudget s { e with date := normDate e.date today },
        monthOfDate (normDate e.date today), 100⟩ cm nbid =
      .error "Cannot create budget named \"Total\"." := by
    unfold saveBudget
    simp only [hres, if_pos]
  rw [htotal]

/-- Unfolding lemma: a valid expense update whose resolved budget exists
for its month rewrites the stored record's cost, description, budget and
(normalized) date in place. -/
theorem saveExpense_update_eq (s : Store) (e e0 : Expense)
    (today cm nbid neid : String)
    (hdesc : (strTrim e.description).length ≠ 0)
    (hcost : ¬ e.cost ≤ 0)
    (hnotnew : e.id ≠ "newExpense")
    (hfound : (s.budgets.find? (fun b =>
        b.month == monthOfDate (normDate e.date today) &&
          b.name == resolveBudget s { e with date := normDate e.date today })).isSome
      = true)
    (hfinde : s.expenses.find? (fun x => x.id == e.id) = some e0) :
    saveExpense s e today cm nbid neid =
      .ok { s with expenses := s.expenses.map (fun x =>
        if x.id == e.id then
          { x with
              cost := e.cost,
              description := e.description,
              budget := resolveBudget s { e with date := normDate e.date today },
              date := normDate e.date today }
        else x) } := by
  unfold saveExpense
  rw [if_neg hdesc, if_neg hcost]
  simp only [hfound, if_true, if_neg hnotnew, hfinde]

/-- C4: a new expense saved with an empty budget field, when no stored
expense shares its description, is stored with `budget = "Misc"`, and
after the save a budget named `"Misc"` exists for the month derived from
the expense's date; when no such budget existed before the save, the
auto-created one has value 100. -/
theorem saveExpense_misc_default (s : Store) (e : Expense)
    (today cm nbid neid : String)
    (hdesc : (strTrim e.description).length ≠ 0)
    (hcost : ¬ e.cost ≤ 0)
    (hid : e.id = "newExpense")
    (hbudget : e.budget = "")
    (hnomatch : ∀ x ∈ s.expenses, x.description ≠ e.description)
    (hdate : isValidDate e.date = true) :
    ∃ s', saveExpense s e today cm nbid neid = .ok s' ∧
      s'.expenses = s.expenses ++ [{ e with id := neid, budget := "Misc" }] ∧
      ∃ b ∈ s'.budgets, b.month = monthOfDate e.date ∧ b.name = "Misc" ∧
        ((∀ b' ∈ s.budgets, ¬(b'.month = monthOfDate e.date ∧ b'.name = "Misc")) →
          b.value = 100) := by
  have hnd : normDate e.date today = e.date := by
    unfold normDate
    rw [if_pos hdate]
  have hfindd : s.expenses.find? (fun x =>
      x.description == ({ e with date := normDate e.date today } : Expense).description)
        = none := by
    rw [List.find?_eq_none]
    intro x hx hpx
    exact hnomatch x hx (by simpa using hpx)
  have hres : resolveBudget s { e with date := normDate e.date today } = "Misc" := by
    unfold resolveBudget
    simp [hbudget, hid, hfindd]
  cases hex : s.budgets.find? (fun b =>
      b.month == monthOfDate (normDate e.date today) &&
        b.name == resolveBudget s { e with date := normDate e.date today }) with
  | some b =>
    have hsome : (s.budgets.find? (fun b =>
        b.month == monthOfDate (normDate e.date today) &&
          b.name == resolveBudget s { e with date := normDate e.date today })).isSome
        = true := by rw [hex]; rfl
    rw [saveExpense_insert_existing_eq s e today cm nbid neid hdesc hcost hid hsome]
    have hbmem := List.mem_of_find?_eq_some hex
    have hbp := List.find?_some hex
    rw [hres, hnd] at hbp
    simp only [Bool.and_eq_true, beq_iff_eq] at hbp
    refine ⟨_, rfl, by rw [hres, hnd], b, hbmem, hbp.1, hbp.2, ?_⟩
    intro hnone
    exact absurd ⟨hbp.1, hbp.2⟩ (hnone b hbmem)
  | none =>
    rw [saveExpense_insert_create_eq s e today cm nbid neid hdesc hcost hid hex
      (by rw [hres]; decide) (by rw [hres]; decide)
      (by rw [hnd]; exact isValidMonth_monthOfDate e.date hdate)]
    refine ⟨_, rfl, by rw [hres, hnd], ?_⟩
    refine ⟨⟨nbid, resolveBudget s { e with date := normDate e.date today },
      monthOfDate (normDate e.date today), 100⟩,
      List.mem_append_right _ (List.mem_singleton.mpr rfl), by rw [hnd],
      by rw [hres], fun _ => rfl⟩

/-- C4 witness: saving a new expense with an empty budget into an empty
store yields the expense tagged `"Misc"` and an auto-created
`("2024-05", "Misc")` budget of value 100. -/
theorem saveExpense_misc_default_witness :
    ∃ s', saveExpense ⟨[], []⟩ ⟨"newExpense", 50, "Coffee", "", "2024-05-17"⟩
        "2024-05-20" "2024-05" "bid" "eid" = .ok s' ∧
      s'.expenses = [] ++ [⟨"eid", 50, "Coffee", "Misc", "2024-05-17"⟩] ∧
      ∃ b ∈ s'.budgets, b.month = monthOfDate "2024-05-17" ∧ b.name = "Misc" ∧
        ((∀ b' ∈ ([] : List Budget),
            ¬(b'.month = monthOfDate "2024-05-17" ∧ b'.name = "Misc")) →
          b.value = 100) :=
  saveExpense_misc_default ⟨[], []⟩ ⟨"newExpense", 50, "Coffee", "", "2024-05-17"⟩
    "2024-05-20" "2024-05" "bid" "eid" (by decide) (by decide) (by decide)
    (by decide) (by decide) (by decide)

/-- C9: a new expense whose budget resolves to the reserved name
`"Total"` (supplied directly or inherited from a stored expense with the
same description) while no `(month, "Total")` budget exists is rejected:
the auto-creation path refuses the reserved name, the error propagates,
and no expense is inserted. -/
theorem saveExpense_reserved_total (s : Store) (e : Expense)
    (today cm nbid neid : String)
    (hdesc : (strTrim e.description).length ≠ 0)
    (hcost : ¬ e.cost ≤ 0)
    (hres : resolveBudget s { e with date := normDate e.date today } = "Total")
    (hnone : ∀ b ∈ s.budgets,
      ¬(b.month = monthOfDate (normDate e.date today) ∧ b.name = "Total")) :
    saveExpense s e today cm nbid neid =
      .error "Cannot create budget named \"Total\"." := by
  have hnotfound : s.budgets.find? (fun b =>
      b.month == monthOfDate (normDate e.date today) &&
        b.name == resolveBudget s { e with date := normDate e.date today }) = none := by
    rw [List.find?_eq_none]
    intro b hb hpb
    rw [hres] at hpb
    apply hnone b hb
    simpa [Bool.and_eq_true, beq_iff_eq] using hpb
  exact saveExpense_reserved_name_eq s e today cm nbid neid hdesc hcost hres hnotfound

/-- C9 witness: saving a new expense tagged `"Total"` into an empty
store is rejected with the reserved-name error. -/
theorem saveExpense_reserved_total_witness :
    saveExpense ⟨[], []⟩ ⟨"newExpense", 50, "Coffee", "Total", "2024-05-17"⟩
        "2024-05-20" "2024-05" "bid" "eid" =
      .error "Cannot create budget named \"Total\"." :=
  saveExpense_reserved_total ⟨[], []⟩ ⟨"newExpense", 50, "Coffee", "Total", "2024-05-17"⟩
    "2024-05-20" "2024-05" "bid" "eid" (by decide) (by decide) (by decide) (by decide)

/-- Inversion lemma: a successful `saveBudget` of a budget carrying the
`"newBudget"` sentinel id takes the insert path and leaves the expenses
untouched. -/
theorem saveBudget_new_expenses_eq (s : Store) (b : Budget) (cm nid : String)
    (s1 : Store) (hnew : b.id = "newBudget")
    (hok : saveBudget s b cm nid = .ok s1) : s1.expenses = s.expenses := by
  unfold saveBudget at hok
  by_cases h1 : b.name = "Total"
  · rw [if_pos h1] at hok
    exact Except.noConfusion hok
  rw [if_neg h1] at hok
  by_cases h2 : (strTrim b.name).length = 0
  · rw [if_pos h2] at hok
    exact Except.noConfusion hok
  rw [if_neg h2] at hok
  by_cases h3 : b.value ≤ 0
  · rw [if_pos h3] at hok
    exact Except.noConfusion hok
  rw [if_neg h3] at hok
  cases hdup : s.budgets.find? (fun x =>
      x.month == normMonth b.month cm && x.name == b.name && x.id != b.id) with
  | some d =>
    simp only [hdup, Option.isSome_some, if_true] at hok
    exact Except.noConfusion hok
  | none =>
    simp only [hdup, Option.isSome_none, Bool.false_eq_true, if_false,
      if_pos hnew] at hok
    cases hok
    rfl

/-- Inversion lemma: every successful `saveExpense` of a new expense —
whether the resolved budget already existed or was just auto-created —
appends the expense with the normalized date and the resolved budget
name. -/
theorem saveExpense_insert_dates_eq (s : Store) (e : Expense)
    (today cm nbid neid : String) (s' : Store)
    (hid : e.id = "newExpense")
    (hok : saveExpense s e today cm nbid neid = .ok s') :
    s'.expenses = s.expenses ++
      [{ e with
           id := neid,
           date := normDate e.date today,
           budget := resolveBudget s { e with date := normDate e.date today } }] := by
  unfold saveExpense at hok
  by_cases hdesc : (strTrim e.description).length = 0
  · rw [if_pos hdesc] at hok
    exact Except.noConfusion hok
  rw [if_neg hdesc] at hok
  by_cases hcost : e.cost ≤ 0
  · rw [if_pos hcost] at hok
    exact Except.noConfusion hok
  rw [if_neg hcost] at hok
  simp only [hid] at hok ⊢
  cases hfound : (s.budgets.find? (fun b =>
      b.month == monthOfDate (normDate e.date today) &&
        b.name == resolveBudget s
          { e with id := "newExpense", date := normDate e.date today })).isSome with
  | true =>
    simp only [hfound, if_true] at hok
    cases hok
    rfl
  | false =>
    simp only [hfound, Bool.false_eq_true, if_false] at hok
    cases hsb : saveBudget s
        ⟨"newBudget",
          resolveBudget s { e with id := "newExpense", date := normDate e.date today },
          monthOfDate (normDate e.date today), 100⟩ cm nbid with
    | error msg =>
      rw [hsb] at hok
      exact Except.noConfusion hok
    | ok s1 =>
      rw [hsb] at hok
      simp only at hok
      cases hok
      rw [saveBudget_new_expenses_eq s _ cm nbid s1 rfl hsb]

/-- Inversion lemma: every successful `saveExpense` update — whether the
resolved budget already existed or was just auto-created — rewrites the
stored record's cost, description, budget and normalized date in place. -/
theorem saveExpense_update_dates_eq (s : Store) (e : Expense)
    (today cm nbid neid : String) (s' : Store)
    (hnotnew : e.id ≠ "newExpense")
    (hok : saveExpense s e today cm nbid neid = .ok s') :
    s'.expenses = s.expenses.map (fun x =>
      if x.id == e.id then
        { x with
            cost := e.cost,
            description := e.description,
            budget := resolveBudget s { e with date := normDate e.date today },
            date := normDate e.date today }
      else x) := by
  unfold saveExpense at hok
  by_cases hdesc : (strTrim e.description).length = 0
  · rw [if_pos hdesc] at hok
    exact Except.noConfusion hok
  rw [if_neg hdesc] at hok
  by_cases hcost : e.cost ≤ 0
  · rw [if_pos hcost] at hok
    exact Except.noConfusion hok
  rw [if_neg hcost] at hok
  cases hfound : (s.budgets.find? (fun b =>
      b.month == monthOfDate (normDate e.date today) &&
        b.name == resolveBudget s { e with date := normDate e.date today })).isSome with
  | true =>
    simp only [hfound, if_true, if_neg hnotnew] at hok
    cases hfinde : s.expenses.find? (fun x => x.id == e.id) with
    | none =>
      simp only [hfinde] at hok
      exact Except.noConfusion hok
    | some e0 =>
      simp only [hfinde] at hok
      cases hok
      rfl
  | false =>
    simp only [hfound, Bool.false_eq_true, if_false] at hok
    cases hsb : saveBudget s
        ⟨"newBudget", resolveBudget s { e with date := normDate e.date today },
          monthOfDate (normDate e.date today), 100⟩ cm nbid with
    | error msg =>
      rw [hsb] at hok
      exact Except.noConfusion hok
    | ok s1 =>
      rw [hsb] at hok
      have hexp := saveBudget_new_expenses_eq s _ cm nbid s1 rfl hsb
      simp only [if_neg hnotnew, hexp] at hok
      cases hfinde : s.expenses.find? (fun x => x.id == e.id) with
      | none =>
        simp only [hfinde] at hok
        exact Except.noConfusion hok
      | some e0 =>
        simp only [hfinde] at hok
        cases hok
        rfl

/-- C7, counterexample to the claim as stated: a successful `saveBudget`
update whose input month `"bad"` is invalid does not store the current
month `"2025-10"` — the update path never writes the month field, so the
stored record keeps its old month `"2024-01"`. -/
theorem save_normalization_counterexample :
    saveBudget ⟨[⟨"1", "A", "2024-01", 100⟩], []⟩ ⟨"1", "A", "bad", 100⟩
        "2025-10" "x" =
      .ok ⟨[⟨"1", "A", "2024-01", 100⟩], []⟩ ∧
    isValidMonth "bad" = false ∧ ("2024-01" : String) ≠ "2025-10" := by
  decide

/-- C7 (amended): `saveBudget` applies the month normalization to the
stored record only on the insert path — an inserted budget is stored
with the current month when its month is not a valid `YYYY-MM` and with
its own month when it is valid, while a successful update leaves every
stored month unchanged (the supplied month, valid or not, is used only
for the duplicate check). `saveExpense` stores the normalized date on
both paths and for every successful save, whether the resolved budget
already existed or was auto-created: today's date when the input date
is not a valid `YYYY-MM-DD`, the input date unchanged when it is
valid. -/
theorem save_normalization (s : Store) :
    (∀ (input : Budget) (cm nid : String),
      input.name ≠ "Total" → (strTrim input.name).length ≠ 0 →
      ¬ input.value ≤ 0 →
      s.budgets.find? (fun b => b.month == normMonth input.month cm &&
        b.name == input.name && b.id != input.id) = none →
      input.id = "newBudget" →
      saveBudget s input cm nid = .ok { s with budgets := s.budgets ++
        [{ input with
             month := if isValidMonth input.month then input.month else cm,
             id := nid }] }) ∧
    (∀ (input : Budget) (cm nid : String) (s' : Store),
      input.id ≠ "newBudget" → saveBudget s input cm nid = .ok s' →
      s'.budgets.map Budget.month = s.budgets.map Budget.month) ∧
    (∀ (e : Expense) (today cm nbid neid : String) (s' : Store),
      e.id = "newExpense" → saveExpense s e today cm nbid neid = .ok s' →
      s'.expenses = s.expenses ++
        [{ e with
             id := neid,
             date := if isValidDate e.date then e.date else today,
             budget := resolveBudget s { e with date := normDate e.date today } }]) ∧
    (∀ (e : Expense) (today cm nbid neid : String) (s' : Store),
      e.id ≠ "newExpense" → saveExpense s e today cm nbid neid = .ok s' →
      s'.expenses = s.expenses.map (fun x =>
        if x.id == e.id then
          { x with
              cost := e.cost,
              description := e.description,
              budget := resolveBudget s { e with date := normDate e.date today },
              date := if isValidDate e.date then e.date else today }
        else x)) := by
  refine ⟨?_, ?_, ?_, ?_⟩
  · intro input cm nid h1 h2 h3 hdup hnew
    exact saveBudget_insert_eq s input cm nid h1 h2 h3 hdup hnew
  · intro input cm nid s' hnotnew hok
    unfold saveBudget at hok
    by_cases h1 : input.name = "Total"
    · rw [if_pos h1] at hok
      exact Except.noConfusion hok
    rw [if_neg h1] at hok
    by_cases h2 : (strTrim input.name).length = 0
    · rw [if_pos h2] at hok
      exact Except.noConfusion hok
    rw [if_neg h2] at hok
    by_cases h3 : input.value ≤ 0
    · rw [if_pos h3] at hok
      exact Except.noConfusion hok
    rw [if_neg h3] at hok
    cases hdup : s.budgets.find? (fun b =>
        b.month == normMonth input.month cm && b.name == input.name &&
          b.id != input.id) with
    | some b =>
      simp only [hdup, Option.isSome_some, if_true] at hok
      exact Except.noConfusion hok
    | none =>
      simp only [hdup, Option.isSome_none, Bool.false_eq_true, if_false,
        if_neg hnotnew] at hok
      cases hfind : s.budgets.find? (fun b => b.id == input.id) with
      | none =>
        rw [hfind] at hok
        exact Except.noConfusion hok
      | some ex =>
        rw [hfind] at hok
        cases hok
        show (s.budgets.map _).map Budget.month = _
        rw [List.map_map]
        have hcomp : (Budget.month ∘ fun b : Budget =>
            if b.id == input.id then
              { b with name := input.name, value := input.value }
            else b) = Budget.month := by
          funext b
          by_cases h : (b.id == input.id) = true <;>
            simp [h, Function.comp]
        rw [hcomp]
  · intro e today cm nbid neid s' hid hok
    exact saveExpense_insert_dates_eq s e today cm nbid neid s' hid hok
  · intro e today cm nbid neid s' hnotnew hok
    exact saveExpense_update_dates_eq s e today cm nbid neid s' hnotnew hok

/-- C7 witness: inserting a budget with the invalid month `"bad"` while
the current month is `"2025-10"` stores `"2025-10"`. -/
theorem save_normalization_witness :
    saveBudget ⟨[⟨"1", "A", "2024-01", 100⟩], []⟩ ⟨"newBudget", "B", "bad", 100⟩
        "2025-10" "g" =
      .ok ⟨[⟨"1", "A", "2024-01", 100⟩, ⟨"g", "B", "2025-10", 100⟩], []⟩ := by
  have h := (save_normalization ⟨[⟨"1", "A", "2024-01", 100⟩], []⟩).1
    ⟨"newBudget", "B", "bad", 100⟩ "2025-10" "g" (by decide) (by decide)
    (by decide) (by decide) rfl
  simpa using h

/-- C5, counterexample to the claim as stated: a stored budget of month
`1999-12` (which `saveBudget` accepts, since `1999-12` is a valid
`YYYY-MM`) falls outside `exportAllData`'s range and is lost by the
export/import round trip. -/
theorem export_import_roundtrip_counterexample :
    importData ⟨[], []⟩ true
        (exportAllData ⟨[⟨"1", "A", "1999-12", 100⟩], []⟩).budgets
        (exportAllData ⟨[⟨"1", "A", "1999-12", 100⟩], []⟩).expenses =
      ⟨[], []⟩ ∧
    (⟨[⟨"1", "A", "1999-12", 100⟩], []⟩ : Store).budgets ≠ [] := by
  decide

/-- C5 (amended): for every store whose budgets' months lie in the
export range `["2000-01", "2100-12"]` and whose expenses' dates lie in
`["2000-01-01", "2100-12-31"]`, running `exportAllData` and then
`importData` with `replaceData = true` on an empty store reproduces the
budgets and expenses id-for-id and field-for-field (as permutations; the
export reorders them). -/
theorem export_import_roundtrip (s : Store)
    (hb : ∀ b ∈ s.budgets, (strLe "2000-01" b.month && strLe b.month "2100-12") = true)
    (he : ∀ e ∈ s.expenses,
      (strLe "2000-01-01" e.date && strLe e.date "2100-12-31") = true) :
    (importData ⟨[], []⟩ true (exportAllData s).budgets
        (exportAllData s).expenses).budgets.Perm s.budgets ∧
    (importData ⟨[], []⟩ true (exportAllData s).budgets
        (exportAllData s).expenses).expenses.Perm s.expenses := by
  constructor
  · show ([] ++ (exportAllData s).budgets).Perm s.budgets
    rw [List.nil_append]
    show (sortByName _).Perm s.budgets
    unfold sortByName
    rw [List.filter_eq_self.mpr hb]
    exact List.perm_insertionSort _ _
  · show ([] ++ (exportAllData s).expenses).Perm s.expenses
    rw [List.nil_append]
    show (sortByDate _).Perm s.expenses
    unfold sortByDate
    rw [List.filter_eq_self.mpr he]
    exact List.perm_insertionSort _ _

/-- C5 witness: round-tripping a one-budget, one-expense store in range
reproduces both records. -/
theorem export_import_roundtrip_witness :
    (importData ⟨[], []⟩ true
        (exportAllData ⟨[⟨"1", "A", "2024-05", 100⟩],
          [⟨"e1", 10, "x", "A", "2024-05-01"⟩]⟩).budgets
        (exportAllData ⟨[⟨"1", "A", "2024-05", 100⟩],
          [⟨"e1", 10, "x", "A", "2024-05-01"⟩]⟩).expenses).budgets.Perm
      [⟨"1", "A", "2024-05", 100⟩] ∧
    (importData ⟨[], []⟩ true
        (exportAllData ⟨[⟨"1", "A", "2024-05", 100⟩],
          [⟨"e1", 10, "x", "A", "2024-05-01"⟩]⟩).budgets
        (exportAllData ⟨[⟨"1", "A", "2024-05", 100⟩],
          [⟨"e1", 10, "x", "A", "2024-05-01"⟩]⟩).expenses).expenses.Perm
      [⟨"e1", 10, "x", "A", "2024-05-01"⟩] :=
  export_import_roundtrip ⟨[⟨"1", "A", "2024-05", 100⟩],
    [⟨"e1", 10, "x", "A", "2024-05-01"⟩]⟩ (by decide) (by decide)

/-- Cloned budgets carry the same `(name, value)` pairs as their
originals, in order. -/
theorem cloneBudgets_map_nv (genId : Nat → String) (dest : String) :
    ∀ (n : Nat) (l : List Budget),
      (cloneBudgets genId dest n l).map (fun b => (b.name, b.value)) =
        l.map (fun b => (b.name, b.value))
  | _, [] => rfl
  | n, b :: rest => by
    simp [cloneBudgets, cloneBudgets_map_nv genId dest (n + 1) rest]

/-- Every cloned budget has the destination month and a generated id. -/
theorem cloneBudgets_mem (genId : Nat → String) (dest : String) :
    ∀ (n : Nat) (l : List Budget) (b : Budget),
      b ∈ cloneBudgets genId dest n l → b.month = dest ∧ ∃ k, b.id = genId k
  | _, [], b => by simp [cloneBudgets]
  | n, a :: rest, b => by
    simp only [cloneBudgets, List.mem_cons]
    rintro (rfl | h)
    · exact ⟨rfl, n, rfl⟩
    · exact cloneBudgets_mem genId dest (n + 1) rest b h

/-- Cloning preserves the number of budgets. -/
theorem cloneBudgets_length (genId : Nat → String) (dest : String) :
    ∀ (n : Nat) (l : List Budget),
      (cloneBudgets genId dest n l).length = l.length
  | _, [] => rfl
  | n, _ :: rest => by
    simp [cloneBudgets, cloneBudgets_length genId dest (n + 1) rest]

/-- C6: `copyBudgets` leaves the stored budgets (in particular every
origin budget) and the expenses unmodified, and appends, for the origin
month's budgets, clones carrying exactly the same `(name, value)` pairs
(one each, as a permutation), each with the destination month and — when
the generated ids are fresh — an id different from every stored one. -/
theorem copyBudgets_clones (s : Store) (origin dest : String)
    (genId : Nat → String)
    (hfresh : ∀ n, genId n ∉ s.budgets.map Budget.id) :
    (copyBudgets s origin dest genId).budgets.take s.budgets.length = s.budgets ∧
    (((copyBudgets s origin dest genId).budgets.drop s.budgets.length).map
        (fun b => (b.name, b.value))).Perm
      ((s.budgets.filter (fun b => b.month == origin)).map
        (fun b => (b.name, b.value))) ∧
    (∀ b ∈ (copyBudgets s origin dest genId).budgets.drop s.budgets.length,
      b.month = dest ∧ b.id ∉ s.budgets.map Budget.id) ∧
    (copyBudgets s origin dest genId).expenses = s.expenses := by
  have hclone : ∀ b ∈ cloneBudgets genId dest 0 (fetchBudgets s origin),
      b.month = dest ∧ b.id ∉ s.budgets.map Budget.id := by
    intro b hb
    obtain ⟨hm, k, hk⟩ := cloneBudgets_mem genId dest 0 (fetchBudgets s origin) b hb
    exact ⟨hm, hk ▸ hfresh k⟩
  have hperm : ((cloneBudgets genId dest 0 (fetchBudgets s origin)).map
      (fun b => (b.name, b.value))).Perm
      ((s.budgets.filter (fun b => b.month == origin)).map
        (fun b => (b.name, b.value))) := by
    rw [cloneBudgets_map_nv]
    exact (List.perm_insertionSort _ _).map _
  unfold copyBudgets
  by_cases hlen : (cloneBudgets genId dest 0 (fetchBudgets s origin)).length > 0
  · rw [if_pos hlen]
    refine ⟨List.take_left _ _, ?_, ?_, rfl⟩
    · rw [List.drop_left]
      exact hperm
    · rw [List.drop_left]
      exact hclone
  · rw [if_neg hlen]
    have hnil : cloneBudgets genId dest 0 (fetchBudgets s origin) = [] :=
      List.eq_nil_of_length_eq_zero (Nat.eq_zero_of_not_pos hlen)
    rw [hnil] at hperm
    refine ⟨List.take_length _, ?_, ?_, rfl⟩
    · rw [List.drop_length]
      exact hperm
    · rw [List.drop_length]
      intro b hb
      cases hb

/-- C6 witness: copying a one-budget month appends one clone with a
fresh id and the destination month, leaving the original intact. -/
theorem copyBudgets_clones_witness :
    (copyBudgets ⟨[⟨"b1", "Food", "2024-05", 100⟩], []⟩ "2024-05" "2024-06"
        (fun _ => "g")).budgets.take 1 = [⟨"b1", "Food", "2024-05", 100⟩] ∧
    (((copyBudgets ⟨[⟨"b1", "Food", "2024-05", 100⟩], []⟩ "2024-05" "2024-06"
        (fun _ => "g")).budgets.drop 1).map (fun b => (b.name, b.value))).Perm
      (([⟨"b1", "Food", "2024-05", 100⟩].filter
        (fun b : Budget => b.month == "2024-05")).map (fun b => (b.name, b.value))) ∧
    (∀ b ∈ (copyBudgets ⟨[⟨"b1", "Food", "2024-05", 100⟩], []⟩ "2024-05" "2024-06"
        (fun _ => "g")).budgets.drop 1,
      b.month = "2024-06" ∧ b.id ∉ [⟨"b1", "Food", "2024-05", 100⟩].map Budget.id) ∧
    (copyBudgets ⟨[⟨"b1", "Food", "2024-05", 100⟩], []⟩ "2024-05" "2024-06"
        (fun _ => "g")).expenses = [] :=
  copyBudgets_clones ⟨[⟨"b1", "Food", "2024-05", 100⟩], []⟩ "2024-05" "2024-06"
    (fun _ => "g") (fun n => by show ("g" : String) ∉ ["b1"]; decide)
